import Mathlib

/-!
Verification of the ECS4TOMAE action-selection / trust-ledger core.

Shallow embedding of `src/data.py`, `src/agent.py` and `src/world.py`:
Python dicts become association lists (or lookup functions where noted),
floats become rationals, `None` becomes `Option.none`, and code paths that
raise become `Except.error`.  Randomness is passed in explicitly: a call
`rng.choice(lst)` is modelled as indexing `lst` by `k % lst.length` for a
supplied index `k`, and `rng.beta`/`rng.random` draws are supplied as
streams or single rationals.
-/

namespace ECS

/-- A causal-variable name. -/
abbrev Var := String

/-- An observation / dict: a finite mapping from variable names to discrete
values (`src/data.py` stores Python dicts; values are embedded as rationals). -/
abbrev Obs := List (Var × ℚ)

/-- Dict lookup, `e[key]` for keys known to be present (`none` = KeyError). -/
def Obs.lookup (e : Obs) (k : Var) : Option ℚ := List.lookup k e

/-- Python dict merge `{**a, **b}`: on duplicate keys `b`'s value wins. -/
def dictMerge (a b : Obs) : Obs :=
  a.filter (fun kv => (List.lookup kv.1 b).isNone) ++ b

/-- `src/data.py` `DataSet(list)`: an ordered sequence of observations. -/
abbrev DataSet := List Obs

/-- `src/data.py` `DataSet.query` (14-24): keep the entries that agree with
every key of the filter dict. -/
def DataSet.query (d : DataSet) (q : Obs) : DataSet :=
  d.filter (fun e => q.all (fun kv => decide (e.lookup kv.1 = some kv.2)))

/-- `src/data.py` `DataSet.mean` (26-28): arithmetic mean of `var` over the
entries, `None` when the dataset is empty. -/
def DataSet.mean (d : DataSet) (v : Var) : Option ℚ :=
  if d.length = 0 then none
  else some ((d.map (fun e => (e.lookup v).getD 0)).sum / (d.length : ℚ))

/-- The mean reward a given action candidate achieves in `optimal_choice`
(`src/data.py` 34), with `⊥` standing for Python's `None` result of `mean`
so that it compares like the `-inf` sentinel of the source. -/
def mval (d : DataSet) (rewVar : Var) (givens : Obs) (a : Obs) : WithBot ℚ :=
  match (d.query (dictMerge a givens)).mean rewVar with
  | none => ⊥
  | some r => (r : WithBot ℚ)

/-- One iteration of the loop of `src/data.py` `DataSet.optimal_choice`
(33-40): the accumulator carries `(best_choice, best_rew)`, `best_rew = ⊥`
playing the role of the initial `-inf`. -/
def optStep (d : DataSet) (rewVar : Var) (givens : Obs) :
    List Obs × WithBot ℚ → Obs → List Obs × WithBot ℚ :=
  fun acc choice =>
    match (d.query (dictMerge choice givens)).mean rewVar with
    | none => acc
    | some r =>
      if (r : WithBot ℚ) > acc.2 then ([choice], (r : WithBot ℚ))
      else if (r : WithBot ℚ) = acc.2 then (acc.1 ++ [choice], acc.2)
      else acc

/-- The `(best_choice, best_rew)` pair `optimal_choice` has built when the
loop over the enumerated action assignments finishes. -/
def optimal_candidates (d : DataSet) (actions : List Obs) (rewVar : Var)
    (givens : Obs) : List Obs × WithBot ℚ :=
  actions.foldl (optStep d rewVar givens) ([], ⊥)

/-- `rng.choice(lst)`: uniform selection modelled by an index `k` reduced
modulo the length; `none` on an empty list. -/
def rngChoice {α : Type} (l : List α) (k : ℕ) : Option α :=
  l.get? (k % l.length)

/-- `src/data.py` `DataSet.optimal_choice` (30-41):
`rng.choice(best_choice) if best_choice else None`. -/
def optimal_choice (d : DataSet) (actions : List Obs) (rewVar : Var)
    (givens : Obs) (k : ℕ) : Option Obs :=
  let bc := (optimal_candidates d actions rewVar givens).1
  if bc.isEmpty then none else rngChoice bc k

/-- Specification helper: the running maximum of the candidate means, seeded
at `b` (the loop of `optimal_choice` tracks it as `best_rew`). -/
def bestFold (d : DataSet) (rewVar : Var) (givens : Obs) (b : WithBot ℚ)
    (acts : List Obs) : WithBot ℚ :=
  acts.foldl (fun x a => max x (mval d rewVar givens a)) b

/-- The membership predicate of the final tie set: a candidate stays in
`best_choice` exactly when its mean is defined and equals the final best. -/
def tiePred (d : DataSet) (rewVar : Var) (givens : Obs) (best : WithBot ℚ)
    (a : Obs) : Bool :=
  decide (mval d rewVar givens a = best ∧ best ≠ ⊥)

/-! ### Thompson sampling (`src/agent.py`) -/

/-- Loop body of `Agent.ts_from_dataset` (src/agent.py 100-106): per action,
tally successes/failures, draw a Beta sample, keep the strictly larger one.
The `rng.beta(alpha + 1, beta + 1)` draw for the i-th action is supplied by
`draws alpha beta i`.  Note there is no tie list: on an exact tie the earlier
action is kept. -/
def tsLoop (data : DataSet) (rewVar : Var) (draws : ℕ → ℕ → ℕ → ℚ) :
    ℕ → List Obs → Option Obs × ℚ → Option Obs × ℚ
  | _, [], acc => acc
  | i, a :: rest, acc =>
    let alpha := (data.query (dictMerge a [(rewVar, 1)])).length
    let bbeta := (data.query (dictMerge a [(rewVar, 0)])).length
    let sample := draws alpha bbeta i
    tsLoop data rewVar draws (i + 1) rest
      (if sample > acc.2 then (some a, sample) else acc)

/-- `src/agent.py` `Agent.ts_from_dataset` (96-107): `choice = None`,
`max_sample = 0`, then the per-action loop over `data = dataset.query(givens)`. -/
def ts_from_dataset (dataset : DataSet) (givens : Obs) (rewVar : Var)
    (actions : List Obs) (draws : ℕ → ℕ → ℕ → ℚ) : Option Obs :=
  (tsLoop (dataset.query givens) rewVar draws 0 actions (none, 0)).1

/-- Loop body of `AdjustAgent.thompson_sample` (src/agent.py 255-260): the
second `if` is not an `elif`, so a strictly improving action is appended to
the freshly reset tie list a second time. -/
def adjustTsStep (acc : List Obs × ℚ) (p : Obs × ℚ) : List Obs × ℚ :=
  let acc1 := if p.2 > acc.2 then ([p.1], p.2) else acc
  if p.2 = acc1.2 then (acc1.1 ++ [p.1], acc1.2) else acc1

/-- The `(choices, max_sample)` state after the `AdjustAgent.thompson_sample`
selection loop, given the per-action `(action, rng.beta sample)` pairs. -/
def adjust_ts_select (aws : List (Obs × ℚ)) : List Obs × ℚ :=
  aws.foldl adjustTsStep ([], 0)

/-- `AdjustAgent.thompson_sample`'s final `self.rng.choice(choices)`
(src/agent.py 261). -/
def adjust_thompson_choice (aws : List (Obs × ℚ)) (k : ℕ) : Option Obs :=
  rngChoice (adjust_ts_select aws).1 k

/-! ### Causal-oracle queries (`AdjustAgent`, src/agent.py) -/

/-- A conditional-probability query `Query(target, given)`.  `query.py` is
outside this core (spec §1 treats the solver as an opaque oracle that may
answer "unknown"), so queries are only compared structurally and answered by
a supplied oracle function. -/
structure Query where
  target : List (Var × ℚ)
  given : List (Var × ℚ)
deriving DecidableEq

/-- Python multiplication whose left operand may be `None`
(`None * x` raises `TypeError`). -/
def pyMul : Option ℚ → ℚ → Except String ℚ
  | none, _ => .error "TypeError: unsupported operand type(s) for *"
  | some x, y => .ok (x * y)

/-- The `(s, r)` iteration order of the nested loops
`for s in (0, 1): for r in (0, 1):` (src/agent.py 239-240, 279-280). -/
def sr_pairs : List (ℚ × ℚ) := [(0, 0), (0, 1), (1, 0), (1, 1)]

/-- One term of `AdjustAgent.get_expected_value` (src/agent.py 281-287): the
guard `if y_prob is None or r_prob is None or s_prob is None: prob += 0`
covers all three factors, so an unknown oracle answer contributes zero. -/
def gev_term (solveCPT : Var → Query → Option ℚ) (action : Obs) (s r : ℚ) : ℚ :=
  match solveCPT "Y" ⟨[("Y", 1)], [("R", r)]⟩,
        solveCPT "R" ⟨[("R", r)], [("S", s)]⟩,
        solveCPT "S" ⟨[("S", s)], action⟩ with
  | some y, some rp, some sp => y * rp * sp
  | _, _, _ => 0

/-- `AdjustAgent.get_expected_value` (src/agent.py 274-288);
`Query(...).solve(CPTs[node])` is modelled by the opaque `solveCPT node q`. -/
def get_expected_value (solveCPT : Var → Query → Option ℚ) (action : Obs) : ℚ :=
  sr_pairs.foldl (fun prob p => prob + gev_term solveCPT action p.1 p.2) 0

/-- The `summA`/`summB` accumulation of `AdjustAgent.thompson_sample`
(src/agent.py 238-249), per agent and action, with `self.solve_query`
modelled by the opaque `solveQ`.  The `continue` guard at line 246 checks
`alpha_y_prob`, `r_prob` and `s_prob` but not `beta_y_prob`, so the
`summB += beta_y_prob * r_prob * s_prob` line can multiply `None`. -/
def adjust_ts_sums (solveQ : Query → Option ℚ) (action : Obs) :
    Except String (ℚ × ℚ) :=
  sr_pairs.foldl (fun acc p => do
      let sums ← acc
      let s := p.1
      let r := p.2
      let alpha_y_prob := solveQ ⟨[("Y", 1)], [("R", r)]⟩
      let beta_y_prob := solveQ ⟨[("Y", 0)], [("R", r)]⟩
      let r_prob := solveQ ⟨[("R", r)], [("S", s)]⟩
      let s_prob := solveQ ⟨[("S", s)], action⟩
      match alpha_y_prob, r_prob, s_prob with
      | some ay, some rp, some sp => do
          let b1 ← pyMul beta_y_prob rp
          pure (sums.1 + ay * rp * sp, sums.2 + b1 * sp)
      | _, _, _ => pure sums)
    (.ok (0, 0))

/-- An oracle that answers every query except `P(Y=0 | R=0)`, which is
unknown — a combination the `continue` guard at src/agent.py 246 does not
cover. -/
def unknownBetaOracle : Query → Option ℚ :=
  fun q => if q = ⟨[("Y", 0)], [("R", 0)]⟩ then none else some (1/2)

/-- A CPT oracle that answers every query except `P(Y=1 | R=0)`, which is
unknown. -/
def unknownYOracleCPT : Var → Query → Option ℚ :=
  fun _ q => if q = ⟨[("Y", 1)], [("R", 0)]⟩ then none else some (1/2)

/-! ### The action-selection dispatcher (`Agent.choose`, src/agent.py) -/

/-- The agent's `epsilon` state: a scalar, or (for ED with nonempty
`feat_perms`) the per-context list `[1] * len(feat_perms)`. -/
inductive EDeps where
  | scalar (e : ℚ)
  | perCtx (e : List ℚ)
deriving DecidableEq

/-- The ED arm of `Agent.choose` (src/agent.py 72-81).  `coin` is the round's
single `rng.random()` draw, `i` the `feat_perms.index(givens)` of the current
context, `randomAct` the result of `choose_random()`.  Per-context explore:
decay `epsilon[i]` once, return the random action.  Per-context exploit:
line 81 executes `self.epsilon *= self.cooling_rate` on the *list* of
epsilons — a `TypeError` in Python for a non-integer cooling rate.  Scalar
exploit: decay once, then fall off the end of `choose` — Python returns
`None`; `choose_optimal` is never called on this path. -/
def chooseED (eps : EDeps) (i : ℕ) (cooling coin : ℚ) (randomAct : Obs) :
    Except String (Option Obs × EDeps) :=
  match eps with
  | .perCtx l =>
    if coin < l.getD i 0 then
      .ok (some randomAct, .perCtx (l.set i (l.getD i 0 * cooling)))
    else .error "TypeError: unsupported operand type(s) for *=: list and float"
  | .scalar e =>
    if coin < e then .ok (some randomAct, .scalar (e * cooling))
    else .ok (none, .scalar (e * cooling))

/-- The action-selection-rule tag (`enums.ASR`); `other` stands for any value
outside the four known rules. -/
inductive ASRv where
  | EG
  | EF
  | ED
  | TS
  | other (s : String)
deriving DecidableEq

/-- The fields `Agent.__init__` (src/agent.py 8-26) derives from its
arguments that matter to action selection. -/
structure AgentConf where
  name : String
  tau : Option ℚ
  asr : ASRv
  epsilonS : EDeps
  rand_trials : ℕ
  cooling_rate : ℚ
  featPermCount : ℕ
deriving DecidableEq

/-- `Agent.__init__` (src/agent.py 8-26): the constructor stores its
arguments — `epsilon` becomes `[1] * len(self.feat_perms)` when
`asr == ASR.ED` — and performs no validation of `asr`; it cannot raise on an
unknown rule, hence the `Except` result is always `.ok`. -/
def agent_init (name : String) (tau : Option ℚ) (asr : ASRv) (epsilon : ℚ)
    (rand_trials : ℕ) (cooling_rate : ℚ) (featPermCount : ℕ) :
    Except String AgentConf :=
  .ok { name := name, tau := tau, asr := asr,
        epsilonS := if asr = ASRv.ED then .perCtx (List.replicate featPermCount 1)
                    else .scalar epsilon,
        rand_trials := rand_trials, cooling_rate := cooling_rate,
        featPermCount := featPermCount }

/-- `Agent.choose` (src/agent.py 57-85).  The delegate calls
(`choose_random`, `choose_optimal`, `thompson_sample`) are supplied as
`randomAct`/`optimalAct`/`tsAct`; `eps` and `efRem` thread the mutable
exploration state (the EF countdown collapses to one counter: the
per-context and scalar branches behave identically on it).  The final arm is
`raise ValueError("%s ASR not found" % self.asr)`. -/
def agent_choose (ag : AgentConf) (eps : EDeps) (efRem : ℕ) (coin : ℚ)
    (i : ℕ) (randomAct optimalAct tsAct : Obs) :
    Except String (Option Obs × EDeps × ℕ) :=
  match ag.asr with
  | .EG =>
    (match eps with
     | .scalar e =>
       if coin < e then .ok (some randomAct, eps, efRem)
       else .ok (some optimalAct, eps, efRem)
     | .perCtx _ => .error "TypeError: comparison of float and list")
  | .EF =>
    if 0 < efRem then .ok (some randomAct, eps, efRem - 1)
    else .ok (some optimalAct, eps, efRem)
  | .ED => (chooseED eps i ag.cooling_rate coin randomAct).map
      (fun p => (p.1, p.2, efRem))
  | .TS => .ok (some tsAct, eps, efRem)
  | .other s => .error ("ValueError: " ++ s ++ " ASR not found")

/-! ### The ledger (`DataBank`, src/data.py) and the agent variants -/

/-- `DataBank.data`: an insertion-ordered dict from agent (identified by
name, embedded as ℕ) to its log. -/
abbrev BankData := List (ℕ × DataSet)

/-- `self.databank[agent]` (DataBank.__getitem__, src/data.py 111-112). -/
def bankGet (data : BankData) (a : ℕ) : DataSet :=
  (List.lookup a data).getD []

/-- `DataBank.all_data` (src/data.py 95-98): one DataSet extended by every
registered agent's log, in registration order. -/
def all_data (data : BankData) : DataSet :=
  (data.map Prod.snd).flatten

/-- Python truthiness of `optimal if optimal else self.choose_random()`:
`None` and the empty dict fall back to the random action. -/
def pick_or_random : Option Obs → Obs → Obs
  | some a, r => if a = [] then r else a
  | none, r => r

/-- `SoloAgent.choose_optimal` (src/agent.py 133-136): optimal choice over
`self.databank[self]`, falling back to `choose_random` (= `randomAct`). -/
def solo_choose_optimal (data : BankData) (me : ℕ) (actions : List Obs)
    (rewVar : Var) (givens : Obs) (k : ℕ) (randomAct : Obs) : Obs :=
  pick_or_random (optimal_choice (bankGet data me) actions rewVar givens k)
    randomAct

/-- `NaiveAgent.choose_optimal` (src/agent.py 152-155): it consults
`self.databank[self]` — the agent's own log — not `all_data()`. -/
def naive_choose_optimal (data : BankData) (me : ℕ) (actions : List Obs)
    (rewVar : Var) (givens : Obs) (k : ℕ) (randomAct : Obs) : Obs :=
  pick_or_random (optimal_choice (bankGet data me) actions rewVar givens k)
    randomAct

/-- `NaiveAgent.thompson_sample` (src/agent.py 157-158): Thompson sampling
over `self.databank.all_data()`. -/
def naive_thompson (data : BankData) (givens : Obs) (rewVar : Var)
    (actions : List Obs) (draws : ℕ → ℕ → ℕ → ℚ) : Option Obs :=
  ts_from_dataset (all_data data) givens rewVar actions draws

/-- `DataBank` (src/data.py 44-53).  `data` is the insertion-ordered dict of
logs; `divergence` is modelled as a flat lookup function
(`divergence[P][Q][v]`, `none` = missing key / Python `None`); `vars` is
`set(domains.keys())` as a duplicate-free list. -/
structure DataBank where
  data : BankData
  vars : List Var
  act_var : Var
  rew_var : Var
  divergence : ℕ → ℕ → Var → Option ℚ

/-- `DataBank.get_non_act_nodes` (src/data.py 69-70). -/
def DataBank.get_non_act_nodes (db : DataBank) : List Var :=
  db.vars.filter (fun v => decide (v ≠ db.act_var))

/-- The inner node loop of `DataBank.add_agent` (src/data.py 63-66): write
`div_val` into `divergence[a][new_agent][node]` and
`divergence[new_agent][a][node]`. -/
def addAgentNodeWrite (a b : ℕ) (dval : ℚ) (node : Var)
    (dv : ℕ → ℕ → Var → Option ℚ) : ℕ → ℕ → Var → Option ℚ :=
  fun p q v =>
    if (p = a ∧ q = b ∧ v = node) ∨ (p = b ∧ q = a ∧ v = node) then some dval
    else dv p q v

/-- One iteration of `for a in self.data.keys()` in `DataBank.add_agent`
(src/data.py 60-66): allocate the fresh inner dicts
`divergence[new_agent][a] = {}` and `divergence[a][new_agent] = {}`, then
write `div_val = 1 if a != new_agent else 0` for every non-action node. -/
def addAgentStep (nodes : List Var) (b : ℕ)
    (dv : ℕ → ℕ → Var → Option ℚ) (pr : ℕ × DataSet) :
    ℕ → ℕ → Var → Option ℚ :=
  let a := pr.1
  let dv1 : ℕ → ℕ → Var → Option ℚ :=
    fun p q v => if (p = b ∧ q = a) ∨ (p = a ∧ q = b) then none else dv p q v
  nodes.foldl (fun dv2 node =>
    addAgentNodeWrite a b (if a ≠ b then 1 else 0) node dv2) dv1

/-- `DataBank.add_agent` (src/data.py 55-66): no-op when the agent is
already a key of `data` (`new_agent in self` iterates the keys); otherwise
allocate an empty log, the fresh row `divergence[new_agent] = {}`, and run
the pairwise initialization loop over all keys (the new agent included). -/
def DataBank.add_agent (db : DataBank) (b : ℕ) : DataBank :=
  if db.data.any (fun p => decide (p.1 = b)) then db
  else
    let data' := db.data ++ [(b, ([] : DataSet))]
    let div0 : ℕ → ℕ → Var → Option ℚ :=
      fun p q v => if p = b then none else db.divergence p q v
    { db with
      data := data',
      divergence := data'.foldl (addAgentStep db.get_non_act_nodes b) div0 }

/-- Python attribute access on an Agent, over the numeric attributes
`Agent.__init__` (src/agent.py 8-26) binds; a missing name raises
`AttributeError`. -/
def getattr (attrs : List (String × ℚ)) (name : String) : Except String ℚ :=
  match List.lookup name attrs with
  | some x => .ok x
  | none => .error ("AttributeError: " ++ name)

/-- The divergence-threshold attribute `Agent.__init__` actually binds: the
constructor stores its `tau` argument as `self.tau` (src/agent.py 13); no
attribute named `div_node_conf` is ever assigned anywhere in the
repository. -/
def agentNumAttrs (tau : ℚ) : List (String × ℚ) := [("tau", tau)]

/-- `DataBank.div_nodes` (src/data.py 90-93) over the items of the row
`self.divergence[P_agent][Q_agent]`.  The comprehension's condition is
`divergence is None or abs(divergence) > P_agent.div_node_conf`: `None`
short-circuits, otherwise the attribute `div_node_conf` is looked up on P. -/
def div_nodes_row (P Q : ℕ) (P_attrs : List (String × ℚ))
    (row : List (Var × Option ℚ)) : Except String (List Var) :=
  if P = Q then .ok []
  else row.foldl (fun acc nv => do
      let l ← acc
      match nv.2 with
      | none => pure (l ++ [nv.1])
      | some dvg => do
          let conf ← getattr P_attrs "div_node_conf"
          pure (if |dvg| > conf then l ++ [nv.1] else l))
    (.ok [])

/-! ### The per-round schedule (`World.run_episode`, src/world.py) -/

/-- Events of one trial round. -/
inductive Ev where
  | refresh
  | choose (a : ℕ)
  | observe (a : ℕ)
deriving DecidableEq

/-- The attribute and method names an `Agent` instance carries: the names
`Agent.__init__` binds (src/agent.py 8-26) plus the methods of `Agent` and
its variant subclasses (src/agent.py 28-288).  `update_divergence`,
`_environment` and `observe` are not among them: the only
`update_divergence` in the sources is `DataBank.update_divergence`
(src/data.py 78), the environment is bound as `environment` (src/agent.py
11), and outcome recording is `Agent.act` (src/agent.py 50-55). -/
def agentMembers : List String :=
  ["rng", "name", "environment", "databank", "tau", "asr", "feat_perms",
   "epsilon", "rand_trials", "rand_trials_rem", "cooling_rate", "act_var",
   "act_dom", "rew_var", "rew_dom",
   "get_recent", "get_ind_var_value", "communicate", "act", "choose",
   "choose_optimal", "choose_random", "thompson_sample", "ts_from_dataset",
   "get_otp",
   "has_S_node", "div_nodes", "get_CPTs", "solve_query",
   "all_causal_path_nodes_corrupted", "get_expected_value"]

/-- The body of `for a in self.agents` in `World.run_episode`
(src/world.py 20-26), with Python attribute lookup made explicit against the
member list of the Agent classes.  Statement order: `a.update_divergence()`
(only when a trust-aware agent is present), `a._environment.pre.sample(a.rng)`,
`a.choose(context)`, `a._environment.post.sample(...)`, `a.observe(sample)`.
Returns the refresh/choose/observe events that executed before the first
missing member raised `AttributeError`, if one did. -/
def runBody (members : List String) (hasSensitive : Bool) (a : ℕ) :
    List Ev × Option String :=
  if hasSensitive ∧ "update_divergence" ∉ members then
    ([], some "AttributeError: update_divergence")
  else
    let evs0 : List Ev := if hasSensitive then [Ev.refresh] else []
    if "_environment" ∉ members then (evs0, some "AttributeError: _environment")
    else if "choose" ∉ members then (evs0, some "AttributeError: choose")
    else
      let evs1 := evs0 ++ [Ev.choose a]
      if "_environment" ∉ members then (evs1, some "AttributeError: _environment")
      else if "observe" ∉ members then (evs1, some "AttributeError: observe")
      else (evs1 ++ [Ev.observe a], none)

/-- `World.run_episode` (src/world.py 19-28): run the per-agent body over
the round's agents in order, stopping at the first uncaught exception; the
result collects the executed events and the aborting exception, if any. -/
def run_episode_exec (members : List String) (agents : List ℕ)
    (hasSensitive : Bool) : List Ev × Option String :=
  match agents with
  | [] => ([], none)
  | a :: rest =>
    let r := runBody members hasSensitive a
    match r.2 with
    | some e => (r.1, some e)
    | none =>
      let rr := run_episode_exec members rest hasSensitive
      (r.1 ++ rr.1, rr.2)

/-! ### Python default-argument sharing (`DataBank.__init__`, src/data.py 45) -/

/-- Python evaluates a `def`'s default parameter values once, at function
definition time; `DataBank.__init__(self, domains, act_var, rew_var,
data={}, divergence={})` therefore binds `data` and `divergence` to two
fixed dict objects shared by every construction that omits them.  The heap
maps addresses to dict objects; these two addresses hold the defaults. -/
def defaultDataAddr : ℕ := 0

/-- The address of the default `divergence={}` dict (see `defaultDataAddr`). -/
def defaultDivAddr : ℕ := 1

/-- The references a constructed DataBank holds to its two dicts. -/
structure BankRef where
  dataAddr : ℕ
  divAddr : ℕ
deriving DecidableEq

/-- The mutable store: dict objects addressed by ℕ. -/
structure Heap where
  dataH : ℕ → BankData
  divH : ℕ → (ℕ → ℕ → Var → Option ℚ)

/-- `DataBank(domains, act_var, rew_var)` with `data` and `divergence`
omitted: the new object aliases the two module-level default dicts. -/
def initBankDefault : BankRef := ⟨defaultDataAddr, defaultDivAddr⟩

/-- `DataBank(domains, act_var, rew_var, data, divergence)` with explicitly
passed fresh dicts living at the given addresses. -/
def initBankExplicit (dAddr vAddr : ℕ) : BankRef := ⟨dAddr, vAddr⟩

/-- `databank.add_agent(b)` executed through a reference: mutates the dict
objects the reference points to, in place. -/
def heap_add_agent (h : Heap) (bk : BankRef) (vars : List Var)
    (act rew : Var) (b : ℕ) : Heap :=
  let db : DataBank := ⟨h.dataH bk.dataAddr, vars, act, rew, h.divH bk.divAddr⟩
  let db2 := db.add_agent b
  { dataH := fun a => if a = bk.dataAddr then db2.data else h.dataH a,
    divH := fun a => if a = bk.divAddr then db2.divergence else h.divH a }

/-- `agent in databank` read through a reference (DataBank.__iter__ walks
`data`'s keys). -/
def bank_contains (h : Heap) (bk : BankRef) (agent : ℕ) : Bool :=
  (h.dataH bk.dataAddr).any (fun p => decide (p.1 = agent))

/-! ### Concrete instances used by counterexamples and witnesses -/

/-- The log of spec §8, concrete scenarios 1-2. -/
def cLog : DataSet := [[("X", 0), ("Y", 1)], [("X", 0), ("Y", 0)], [("X", 1), ("Y", 1)]]

/-- The enumerated action assignments for the domain `{X: [0, 1]}`. -/
def cActs : List Obs := [[("X", 0)], [("X", 1)]]

/-- A two-agent ledger: agent 0 has seen one rewarded `X=0` trial; agent 1
has seen two rewarded `X=1` trials and one unrewarded `X=0` trial. -/
def cBank : BankData :=
  [(0, [[("X", 0), ("Y", 1)]]),
   (1, [[("X", 1), ("Y", 1)], [("X", 1), ("Y", 1)], [("X", 0), ("Y", 0)]])]

/-- A copy of `cBank` holding only agent 0's log: it agrees with `cBank` on
agent 0's own entry. -/
def cBankOwn : BankData := [(0, [[("X", 0), ("Y", 1)]])]

/-- An empty ledger over the domains `{X: [0, 1], Y: [0, 1]}` with action
variable X (so Y is the only non-action node). -/
def emptyBank : DataBank :=
  ⟨[], ["X", "Y"], "X", "Y", fun _ _ _ => none⟩

/-- The ledger after registering agent 0. -/
def bank0 : DataBank := emptyBank.add_agent 0

/-- The ledger after registering agent 0 and then agent 1. -/
def bank01 : DataBank := (emptyBank.add_agent 0).add_agent 1

/-- A heap whose dict store is entirely empty. -/
def emptyHeap : Heap := ⟨fun _ => [], fun _ => fun _ _ _ => none⟩

lemma bestFold_nil (d : DataSet) (rewVar : Var) (givens : Obs) (b : WithBot ℚ) :
    bestFold d rewVar givens b [] = b := rfl

lemma bestFold_cons (d : DataSet) (rewVar : Var) (givens : Obs) (b : WithBot ℚ)
    (a : Obs) (l : List Obs) :
    bestFold d rewVar givens b (a :: l)
      = bestFold d rewVar givens (max b (mval d rewVar givens a)) l := rfl

lemma le_bestFold (d : DataSet) (rewVar : Var) (givens : Obs) :
    ∀ (acts : List Obs) (b : WithBot ℚ), b ≤ bestFold d rewVar givens b acts := by
  intro acts
  induction acts with
  | nil => intro b; exact le_refl _
  | cons a rest ih =>
    intro b
    calc b ≤ max b (mval d rewVar givens a) := le_max_left _ _
    _ ≤ bestFold d rewVar givens (max b (mval d rewVar givens a)) rest := ih _
    _ = bestFold d rewVar givens b (a :: rest) := (bestFold_cons ..).symm

lemma elem_le_bestFold (d : DataSet) (rewVar : Var) (givens : Obs) :
    ∀ (acts : List Obs) (b : WithBot ℚ) (a : Obs), a ∈ acts →
      mval d rewVar givens a ≤ bestFold d rewVar givens b acts := by
  intro acts
  induction acts with
  | nil => intro b a ha; cases ha
  | cons x rest ih =>
    intro b a ha
    rcases List.mem_cons.1 ha with rfl | ha
    · calc mval d rewVar givens a ≤ max b (mval d rewVar givens a) := le_max_right _ _
      _ ≤ bestFold d rewVar givens (max b (mval d rewVar givens a)) rest :=
        le_bestFold d rewVar givens rest _
      _ = bestFold d rewVar givens b (a :: rest) := (bestFold_cons ..).symm
    · rw [bestFold_cons]
      exact ih _ a ha

lemma bestFold_attained (d : DataSet) (rewVar : Var) (givens : Obs) :
    ∀ (acts : List Obs) (b : WithBot ℚ),
      bestFold d rewVar givens b acts = b
      ∨ ∃ a ∈ acts, mval d rewVar givens a = bestFold d rewVar givens b acts := by
  intro acts
  induction acts with
  | nil => intro b; exact Or.inl rfl
  | cons x rest ih =>
    intro b
    rw [bestFold_cons]
    rcases ih (max b (mval d rewVar givens x)) with h | ⟨a, ha, hv⟩
    · rcases max_choice b (mval d rewVar givens x) with hm | hm
      · exact Or.inl (by rw [h, hm])
      · exact Or.inr ⟨x, List.mem_cons_self .., by rw [h, hm]⟩
    · exact Or.inr ⟨a, List.mem_cons_of_mem _ ha, hv⟩

/-- One loop iteration, written through `mval`. -/
lemma optStep_eq (d : DataSet) (rewVar : Var) (givens : Obs)
    (acc : List Obs × WithBot ℚ) (a : Obs) :
    optStep d rewVar givens acc a
      = if mval d rewVar givens a = ⊥ then acc
        else if mval d rewVar givens a > acc.2 then ([a], mval d rewVar givens a)
        else if mval d rewVar givens a = acc.2 then (acc.1 ++ [a], acc.2)
        else acc := by
  unfold optStep mval
  rcases h : (d.query (dictMerge a givens)).mean rewVar with _ | r
  · simp
  · simp [WithBot.coe_ne_bot]

/-- Characterization of the `optimal_choice` loop (src/data.py 33-40): it
returns the running maximum of the defined means, and the tie list collects,
in order, exactly the candidates attaining that maximum. -/
theorem optFold_spec (d : DataSet) (rewVar : Var) (givens : Obs) :
    ∀ (acts : List Obs) (cur : List Obs × WithBot ℚ),
      acts.foldl (optStep d rewVar givens) cur
        = ((if cur.2 = bestFold d rewVar givens cur.2 acts then cur.1 else [])
            ++ acts.filter (tiePred d rewVar givens (bestFold d rewVar givens cur.2 acts)),
           bestFold d rewVar givens cur.2 acts) := by
  intro acts
  induction acts with
  | nil => intro cur; simp [bestFold_nil]
  | cons a rest ih =>
    intro cur
    rw [List.foldl_cons, bestFold_cons, optStep_eq]
    set m := mval d rewVar givens a with hm
    by_cases hbot : m = ⊥
    · rw [if_pos hbot]
      have hmax : max cur.2 m = cur.2 := by rw [hbot]; exact max_eq_left bot_le
      rw [hmax, ih cur]
      have hpred : tiePred d rewVar givens (bestFold d rewVar givens cur.2 rest) a = false := by
        unfold tiePred
        simp only [decide_eq_false_iff_not]
        rintro ⟨h1, h2⟩
        exact h2 (h1 ▸ hbot)
      rw [List.filter_cons, hpred]
      simp
    · rw [if_neg hbot]
      rcases lt_trichotomy cur.2 m with hlt | heq | hgt
      · -- strict improvement: reset the tie list
        rw [if_pos hlt]
        have hmax : max cur.2 m = m := max_eq_right hlt.le
        rw [hmax, ih ([a], m)]
        have hB := le_bestFold d rewVar givens rest m
        set B := bestFold d rewVar givens m rest with hBdef
        have hBne : B ≠ ⊥ := by
          intro h
          exact hbot (le_bot_iff.1 (h ▸ hB))
        have hcurne : cur.2 ≠ B := ne_of_lt (lt_of_lt_of_le hlt hB)
        rw [if_neg hcurne, List.filter_cons]
        by_cases hmB : m = B
        · have hpred : tiePred d rewVar givens B a = true := by
            unfold tiePred
            simp only [decide_eq_true_eq]
            exact ⟨hm ▸ hmB, hBne⟩
          rw [if_pos hmB, hpred]
          simp
        · have hpred : tiePred d rewVar givens B a = false := by
            unfold tiePred
            simp only [decide_eq_false_iff_not]
            rintro ⟨h1, _⟩
            exact hmB (hm ▸ h1)
          rw [if_neg hmB, hpred]
          simp
      · -- equal to the running best: append to the tie list
        rw [if_neg (by rw [heq]; exact lt_irrefl m), if_pos heq.symm]
        have hmax : max cur.2 m = cur.2 := max_eq_left heq.ge
        rw [hmax, ih (cur.1 ++ [a], cur.2)]
        set B := bestFold d rewVar givens cur.2 rest with hBdef
        rw [List.filter_cons]
        by_cases hcur : cur.2 = B
        · have hBne : B ≠ ⊥ := by rw [← hcur, heq]; exact hbot
          have hpred : tiePred d rewVar givens B a = true := by
            unfold tiePred
            simp only [decide_eq_true_eq]
            exact ⟨hm ▸ (heq ▸ hcur : m = B), hBne⟩
          rw [if_pos hcur, if_pos hcur, hpred]
          simp
        · have hpred : tiePred d rewVar givens B a = false := by
            unfold tiePred
            simp only [decide_eq_false_iff_not]
            rintro ⟨h1, _⟩
            exact hcur (heq.trans (hm.symm.trans h1 : m = B))
          rw [if_neg hcur, if_neg hcur, hpred]
          simp
      · -- below the running best: skip
        rw [if_neg (by exact not_lt.2 hgt.le), if_neg (ne_of_lt hgt)]
        have hmax : max cur.2 m = cur.2 := max_eq_left hgt.le
        rw [hmax, ih cur]
        set B := bestFold d rewVar givens cur.2 rest with hBdef
        have hpred : tiePred d rewVar givens B a = false := by
          unfold tiePred
          simp only [decide_eq_false_iff_not]
          rintro ⟨h1, _⟩
          have hle : cur.2 ≤ B := le_bestFold d rewVar givens rest cur.2
          have : m = B := hm.symm.trans h1
          exact absurd (this ▸ hle) (not_le.2 hgt)
        rw [List.filter_cons, hpred]
        simp

lemma mean_eq_none_iff (d : DataSet) (v : Var) : d.mean v = none ↔ d = [] := by
  unfold DataSet.mean
  by_cases h : d.length = 0
  · simp [h, List.length_eq_zero.1 h]
  · simp [h]
    intro hnil
    exact h (by rw [hnil]; rfl)

lemma mval_eq_bot_iff (d : DataSet) (rewVar : Var) (givens : Obs) (a : Obs) :
    mval d rewVar givens a = ⊥ ↔ d.query (dictMerge a givens) = [] := by
  unfold mval
  rcases h : (d.query (dictMerge a givens)).mean rewVar with _ | r
  · simpa using (mean_eq_none_iff ..).1 h
  · have : d.query (dictMerge a givens) ≠ [] := by
      intro hnil
      rw [(mean_eq_none_iff ..).2 hnil] at h
      cases h
    simp [WithBot.coe_ne_bot, this]

/-- The final `(best_choice, best_rew)` pair equals the tie-filter over the
running maximum. -/
lemma optimal_candidates_eq (d : DataSet) (actions : List Obs) (rewVar : Var)
    (givens : Obs) :
    optimal_candidates d actions rewVar givens
      = (actions.filter
           (tiePred d rewVar givens (bestFold d rewVar givens ⊥ actions)),
         bestFold d rewVar givens ⊥ actions) := by
  unfold optimal_candidates
  rw [optFold_spec d rewVar givens actions ([], ⊥)]
  simp [ite_self]

/-- C6: `optimal_choice` (src/data.py 30-41) never returns an action without
supporting observations when some action has support; with no support at all
it returns `None`; the tie list is exactly the supported actions attaining
the maximal mean (duplicate-free when the action enumeration is), and the
supplied random source picks uniformly inside it (every index selects the
corresponding tie-list member). -/
theorem C6_optimal_choice_spec (d : DataSet) (actions : List Obs)
    (rewVar : Var) (givens : Obs) (k : ℕ) :
    (∀ a ∈ (optimal_candidates d actions rewVar givens).1,
        d.query (dictMerge a givens) ≠ []) ∧
    ((∀ a ∈ actions, d.query (dictMerge a givens) = []) →
        optimal_choice d actions rewVar givens k = none) ∧
    ((∃ a ∈ actions, d.query (dictMerge a givens) ≠ []) →
        ∃ c, optimal_choice d actions rewVar givens k = some c
          ∧ c ∈ (optimal_candidates d actions rewVar givens).1) ∧
    ((optimal_candidates d actions rewVar givens).1
        = actions.filter
            (tiePred d rewVar givens (optimal_candidates d actions rewVar givens).2)) ∧
    (∀ a ∈ actions,
        mval d rewVar givens a ≤ (optimal_candidates d actions rewVar givens).2) ∧
    (∀ a ∈ (optimal_candidates d actions rewVar givens).1,
        mval d rewVar givens a = (optimal_candidates d actions rewVar givens).2) ∧
    (actions.Nodup → (optimal_candidates d actions rewVar givens).1.Nodup) ∧
    (∀ j : ℕ, j < (optimal_candidates d actions rewVar givens).1.length →
        optimal_choice d actions rewVar givens j
          = (optimal_candidates d actions rewVar givens).1.get? j) := by
  have hceq := optimal_candidates_eq d actions rewVar givens
  have hcand1 : (optimal_candidates d actions rewVar givens).1
      = actions.filter
          (tiePred d rewVar givens (bestFold d rewVar givens ⊥ actions)) := by
    rw [hceq]
  have hcand2 : (optimal_candidates d actions rewVar givens).2
      = bestFold d rewVar givens ⊥ actions := by rw [hceq]
  have hmem : ∀ a, a ∈ (optimal_candidates d actions rewVar givens).1 →
      a ∈ actions ∧ mval d rewVar givens a = bestFold d rewVar givens ⊥ actions
        ∧ bestFold d rewVar givens ⊥ actions ≠ ⊥ := by
    intro a ha
    rw [hcand1] at ha
    obtain ⟨hmem, hp⟩ := List.mem_filter.1 ha
    unfold tiePred at hp
    obtain ⟨h1, h2⟩ := of_decide_eq_true hp
    exact ⟨hmem, h1, h2⟩
  refine ⟨?_, ?_, ?_, ?_, ?_, ?_, ?_, ?_⟩
  · -- support for every tie-list member
    intro a ha
    obtain ⟨-, h1, h2⟩ := hmem a ha
    exact fun hnil => h2 (h1 ▸ (mval_eq_bot_iff ..).2 hnil)
  · -- no supported action at all: return None
    intro hall
    have hbots : ∀ a ∈ actions, mval d rewVar givens a = ⊥ := fun a ha =>
      (mval_eq_bot_iff ..).2 (hall a ha)
    have hbest : bestFold d rewVar givens ⊥ actions = ⊥ := by
      rcases bestFold_attained d rewVar givens actions ⊥ with h | ⟨a, ha, hv⟩
      · exact h
      · exact hv ▸ hbots a ha
    have hnil : (optimal_candidates d actions rewVar givens).1 = [] := by
      rw [hcand1, List.filter_eq_nil_iff]
      intro a ha
      unfold tiePred
      simp only [decide_eq_true_eq, not_and, not_not]
      intro _
      exact hbest
    unfold optimal_choice
    rw [hnil]
    rfl
  · -- some supported action: a defined choice from the tie list
    rintro ⟨a0, ha0, hsupp⟩
    have hne : mval d rewVar givens a0 ≠ ⊥ :=
      fun h => hsupp ((mval_eq_bot_iff ..).1 h)
    have hbest : bestFold d rewVar givens ⊥ actions ≠ ⊥ := by
      intro h
      exact hne (le_bot_iff.1 (h ▸ elem_le_bestFold d rewVar givens actions ⊥ a0 ha0))
    obtain ⟨a1, ha1, hv1⟩ : ∃ a ∈ actions,
        mval d rewVar givens a = bestFold d rewVar givens ⊥ actions := by
      rcases bestFold_attained d rewVar givens actions ⊥ with h | h
      · exact absurd h hbest
      · exact h
    have hmem1 : a1 ∈ (optimal_candidates d actions rewVar givens).1 := by
      rw [hcand1]
      exact List.mem_filter.2 ⟨ha1, by unfold tiePred; exact decide_eq_true ⟨hv1, hbest⟩⟩
    have hlen : 0 < (optimal_candidates d actions rewVar givens).1.length :=
      List.length_pos.2 (fun h => by rw [h] at hmem1; cases hmem1)
    have hmod : k % (optimal_candidates d actions rewVar givens).1.length
        < (optimal_candidates d actions rewVar givens).1.length := Nat.mod_lt _ hlen
    refine ⟨(optimal_candidates d actions rewVar givens).1.get ⟨_, hmod⟩, ?_, ?_⟩
    · unfold optimal_choice rngChoice
      rw [if_neg (by simp [List.isEmpty_iff, ← List.length_pos_iff_ne_nil, hlen])]
      exact List.get?_eq_get hmod
    · exact List.get_mem ..
  · -- the tie list is the filter at the final best value
    rw [hcand2]
    exact hcand1
  · -- the tracked best value bounds every action's mean
    intro a ha
    rw [hcand2]
    exact elem_le_bestFold d rewVar givens actions ⊥ a ha
  · -- every tie-list member attains the best value
    intro a ha
    obtain ⟨-, h1, -⟩ := hmem a ha
    rw [hcand2]
    exact h1
  · -- no duplicates when the enumeration has none
    intro hnd
    rw [hcand1]
    exact hnd.filter _
  · -- uniform selection: index j picks the j-th tie-list member
    intro j hj
    unfold optimal_choice rngChoice
    have hlen : 0 < (optimal_candidates d actions rewVar givens).1.length :=
      lt_of_le_of_lt (Nat.zero_le _) hj
    rw [if_neg (by simp [List.isEmpty_iff, ← List.length_pos_iff_ne_nil, hlen])]
    rw [Nat.mod_eq_of_lt hj]

/-- C6 witness: on the log of spec §8 scenario 2, some action is supported,
so the theorem yields a defined choice from the tie list. -/
theorem C6_optimal_choice_spec_witness :
    ∃ c, optimal_choice cLog cActs "Y" [] 0 = some c
      ∧ c ∈ (optimal_candidates cLog cActs "Y" []).1 :=
  (C6_optimal_choice_spec cLog cActs "Y" [] 0).2.2.1
    ⟨[("X", 0)], by simp [cActs],
     by simp [cLog, DataSet.query, dictMerge, Obs.lookup, List.lookup]⟩

/-- C1 counterexample: with ledger `cBank`, the Community (naive) agent 0's
`choose_optimal` picks `X=0` (the optimum of its own log), while the optimum
over `communityPool()` (= `all_data`) is `X=1` — so the naive exploitation
decision is not backed by the community pool. -/
theorem C1_counterexample :
    naive_choose_optimal cBank 0 cActs "Y" [] 0 [("X", 0)] = [("X", 0)]
  ∧ optimal_choice (all_data cBank) cActs "Y" [] 0 = some [("X", 1)]
  ∧ naive_choose_optimal cBank 0 cActs "Y" [] 0 [("X", 0)]
      ≠ pick_or_random (optimal_choice (all_data cBank) cActs "Y" [] 0) [("X", 0)] := by
  refine ⟨?_, ?_, ?_⟩
  · simp [naive_choose_optimal, pick_or_random, bankGet, cBank, cActs,
      optimal_choice, optimal_candidates, optStep, DataSet.mean, DataSet.query,
      Obs.lookup, dictMerge, List.lookup, rngChoice, bot_lt_iff_ne_bot]
  · simp [all_data, cBank, cActs, optimal_choice, optimal_candidates, optStep,
      DataSet.mean, DataSet.query, Obs.lookup, dictMerge, List.lookup, rngChoice,
      bot_lt_iff_ne_bot]
    norm_num
  · simp [naive_choose_optimal, pick_or_random, bankGet, all_data, cBank, cActs,
      optimal_choice, optimal_candidates, optStep, DataSet.mean, DataSet.query,
      Obs.lookup, dictMerge, List.lookup, rngChoice, bot_lt_iff_ne_bot]
    norm_num

/-- C1 amended: the Community (naive) agent's `choose_optimal` is backed by
the agent's own log alone — it is insensitive to every other agent's log and
coincides with the Isolated (solo) variant's computation; only the
Thompson-sampling path reads `all_data()`. -/
theorem C1_naive_own_log (data data2 : BankData) (me : ℕ) (actions : List Obs)
    (rewVar : Var) (givens : Obs) (k : ℕ) (randomAct : Obs)
    (h : List.lookup me data = List.lookup me data2) :
    naive_choose_optimal data me actions rewVar givens k randomAct
      = naive_choose_optimal data2 me actions rewVar givens k randomAct
  ∧ naive_choose_optimal data me actions rewVar givens k randomAct
      = solo_choose_optimal data me actions rewVar givens k randomAct
  ∧ naive_thompson data givens rewVar actions
      = ts_from_dataset (all_data data) givens rewVar actions := by
  refine ⟨?_, rfl, rfl⟩
  unfold naive_choose_optimal bankGet
  rw [h]

/-- C1 witness: `cBank` and `cBankOwn` agree on agent 0's log, so the naive
exploitation decision is the same although the other agent's log differs. -/
theorem C1_naive_own_log_witness :
    naive_choose_optimal cBank 0 cActs "Y" [] 0 [("X", 0)]
      = naive_choose_optimal cBankOwn 0 cActs "Y" [] 0 [("X", 0)]
  ∧ naive_choose_optimal cBank 0 cActs "Y" [] 0 [("X", 0)]
      = solo_choose_optimal cBank 0 cActs "Y" [] 0 [("X", 0)]
  ∧ naive_thompson cBank [] "Y" cActs
      = ts_from_dataset (all_data cBank) [] "Y" cActs :=
  C1_naive_own_log cBank cBankOwn 0 cActs "Y" [] 0 [("X", 0)] (by decide)

/-- C2: the ED arm of `Agent.choose`.  With scalar exploration state the
decay is applied exactly once in either branch, but the exploit branch
produces no action at all (Python falls off the end of `choose` and returns
`None`; `choose_optimal` is never called), and with per-context state the
exploit branch raises `TypeError` (line 81 multiplies the epsilon *list* by
the cooling rate). -/
theorem C2_ed_rule_eval :
    (∀ (e cooling coin : ℚ) (r : Obs),
        (chooseED (.scalar e) 0 cooling coin r).map Prod.snd
          = .ok (.scalar (e * cooling)))
  ∧ chooseED (.scalar 0) 0 (1/2) 0 [("X", 0)] = .ok (none, .scalar 0)
  ∧ chooseED (.perCtx [1/2]) 0 (1/2) (3/4) [("X", 0)]
      = .error "TypeError: unsupported operand type(s) for *=: list and float" := by
  refine ⟨?_, ?_, ?_⟩
  · intro e cooling coin r
    by_cases h : coin < e <;> simp [chooseED, h, Except.map]
  · simp [chooseED]
  · simp [chooseED]
    norm_num

/-- C3: Thompson-sampling ties.  The base `ts_from_dataset` keeps the first
maximal action deterministically (equal Beta samples for both actions, yet
`X=0` is always returned; no tie randomization exists), and the
causally-adjusted selection loop appends the newly-best action twice, so its
tie list for two equal samples is `[X=0, X=0, X=1]` — `X=0` occurs twice and
the `rng.choice` tie-break is skewed, not uniform over the maximal set. -/
theorem C3_ts_tie_eval :
    ts_from_dataset [] [] "Y" cActs (fun _ _ _ => 1/2) = some [("X", 0)]
  ∧ adjust_ts_select [([("X", 0)], 1/2), ([("X", 1)], 1/2)]
      = ([[("X", 0)], [("X", 0)], [("X", 1)]], 1/2) := by
  constructor
  · simp [ts_from_dataset, tsLoop, cActs, DataSet.query]
  · simp [adjust_ts_select, adjustTsStep]

/-- C4: against the members the Agent classes actually define,
`World.run_episode` aborts on its very first statement — with a trust-aware
agent present, `a.update_divergence()` raises `AttributeError` at the first
agent (and without one, `a._environment` does), so the divergence ledger is
refreshed zero times in the round, no agent makes a decision, and the
claimed refresh-once-before-all-decisions schedule never executes. -/
theorem C4_run_episode_eval :
    run_episode_exec agentMembers [0, 1] true
      = ([], some "AttributeError: update_divergence")
  ∧ run_episode_exec agentMembers [0, 1] false
      = ([], some "AttributeError: _environment")
  ∧ (run_episode_exec agentMembers [0, 1] true).1.count Ev.refresh = 0
  ∧ (run_episode_exec agentMembers [0, 1] true).1.count (Ev.choose 0) = 0 := by
  refine ⟨?_, ?_, ?_, ?_⟩ <;> decide

/-- C5: `div_nodes` does return `[]` when `P == Q`, but for distinct agents
it evaluates `P_agent.div_node_conf`, an attribute `Agent.__init__` never
binds (the threshold is stored as `tau`), so the first defined divergence
entry — e.g. the value 1 installed by registration, here read off
`bank01` — raises `AttributeError` instead of returning the divergent set. -/
theorem C5_div_nodes_eval :
    (∀ (P : ℕ) (attrs : List (String × ℚ)) (row : List (Var × Option ℚ)),
        div_nodes_row P P attrs row = .ok [])
  ∧ bank01.divergence 0 1 "Y" = some 1
  ∧ div_nodes_row 0 1 (agentNumAttrs (1/20)) [("Y", some 1)]
      = .error "AttributeError: div_node_conf" := by
  refine ⟨?_, ?_, ?_⟩
  · intro P attrs row
    simp [div_nodes_row]
  · decide
  · simp [div_nodes_row, getattr, agentNumAttrs, List.lookup]
    rfl

/-- C7: in `get_expected_value` an unknown oracle answer makes the whole
`(s, r)` term contribute exactly zero (the all-unknown oracle yields 0, and
with `P(Y=1 | R=0)` unknown only the `r = 1` terms `1/8 + 1/8` survive), but
in `thompson_sample`'s pseudo-count aggregation the guard omits
`beta_y_prob`: an oracle that answers everything except `P(Y=0 | R=0)`
drives `summB += beta_y_prob * r_prob * s_prob` into `None * float`, a
`TypeError`, not a zero contribution. -/
theorem C7_oracle_unknown_eval :
    gev_term (fun _ _ => none) [("X", 0)] 0 0 = 0
  ∧ get_expected_value (fun _ _ => none) [("X", 0)] = 0
  ∧ get_expected_value unknownYOracleCPT [("X", 0)] = 1/4
  ∧ adjust_ts_sums unknownBetaOracle [("X", 0)]
      = .error "TypeError: unsupported operand type(s) for *" := by
  refine ⟨rfl, ?_, ?_, ?_⟩
  · simp [get_expected_value, gev_term, sr_pairs]
  · simp [get_expected_value, gev_term, sr_pairs, unknownYOracleCPT]
    norm_num
  · simp only [adjust_ts_sums, sr_pairs, unknownBetaOracle, pyMul]
    rfl

/-- C8 counterexample: constructing an Agent with an unknown
action-selection rule succeeds — `Agent.__init__` performs no validation, so
no error is raised at construction time. -/
theorem C8_counterexample :
    agent_init "a" none (.other "FOO") 0 0 0 0
      = .ok { name := "a", tau := none, asr := .other "FOO",
              epsilonS := .scalar 0, rand_trials := 0, cooling_rate := 0,
              featPermCount := 0 } := rfl

/-- C8 amended: the unknown-rule error is deferred: for any unknown rule
name, construction succeeds and the `ValueError` is raised by the first call
to `choose`. -/
theorem C8_unknown_asr_deferred (s name : String) (tau : Option ℚ)
    (epsilon : ℚ) (rt : ℕ) (cr : ℚ) (fc : ℕ) (eps : EDeps) (efRem : ℕ)
    (coin : ℚ) (i : ℕ) (r o t : Obs) :
    (agent_init name tau (.other s) epsilon rt cr fc).bind
        (fun ag => agent_choose ag eps efRem coin i r o t)
      = .error ("ValueError: " ++ s ++ " ASR not found") := rfl

/-- The node loop of `add_agent` writes `dval` exactly at the cells
`(a, b, v)` and `(b, a, v)` for `v` among the written nodes. -/
lemma nodeFold_apply (a b : ℕ) (dval : ℚ) :
    ∀ (nodes : List Var) (dv : ℕ → ℕ → Var → Option ℚ) (p q : ℕ) (v : Var),
      (nodes.foldl (fun dv2 node => addAgentNodeWrite a b dval node dv2) dv) p q v
        = if ((p = a ∧ q = b) ∨ (p = b ∧ q = a)) ∧ v ∈ nodes then some dval
          else dv p q v := by
  intro nodes
  induction nodes with
  | nil => intro dv p q v; simp
  | cons n rest ih =>
    intro dv p q v
    rw [List.foldl_cons, ih]
    by_cases hpair : (p = a ∧ q = b) ∨ (p = b ∧ q = a)
    · by_cases hvr : v ∈ rest
      · simp [hpair, hvr]
      · by_cases hvn : v = n
        · simp only [hpair, hvr, true_and, false_and, and_false, or_false,
            if_false, List.mem_cons, hvn, true_or, and_true, if_true]
          unfold addAgentNodeWrite
          rcases hpair with ⟨h1, h2⟩ | ⟨h1, h2⟩ <;> simp [h1, h2]
        · have hv : v ∉ n :: rest := by simp [hvn, hvr]
          simp only [hpair, hvr, and_false, if_false, true_and, List.mem_cons,
            hv]
          unfold addAgentNodeWrite
          have : ¬((p = a ∧ q = b ∧ v = n) ∨ (p = b ∧ q = a ∧ v = n)) := by
            rintro (⟨-, -, h⟩ | ⟨-, -, h⟩) <;> exact hvn h
          simp [this, hvn]
    · have h1 : ¬(((p = a ∧ q = b) ∨ (p = b ∧ q = a)) ∧ v ∈ rest) := by
        rintro ⟨h, -⟩; exact hpair h
      have h2 : ¬(((p = a ∧ q = b) ∨ (p = b ∧ q = a)) ∧ v ∈ n :: rest) := by
        rintro ⟨h, -⟩; exact hpair h
      rw [if_neg h1, if_neg h2]
      unfold addAgentNodeWrite
      have : ¬((p = a ∧ q = b ∧ v = n) ∨ (p = b ∧ q = a ∧ v = n)) := by
        rintro (⟨x1, x2, -⟩ | ⟨x1, x2, -⟩)
        · exact hpair (Or.inl ⟨x1, x2⟩)
        · exact hpair (Or.inr ⟨x1, x2⟩)
      simp [this]

/-- One outer iteration of `add_agent`'s divergence initialization: the
cells of the pair `{pr.1, b}` take the fresh value, every other cell is
untouched. -/
lemma addAgentStep_apply (nodes : List Var) (b : ℕ)
    (dv : ℕ → ℕ → Var → Option ℚ) (pr : ℕ × DataSet) (p q : ℕ) (v : Var) :
    addAgentStep nodes b dv pr p q v
      = if (p = pr.1 ∧ q = b) ∨ (p = b ∧ q = pr.1)
        then (if v ∈ nodes then some (if pr.1 ≠ b then 1 else 0) else none)
        else dv p q v := by
  unfold addAgentStep
  rw [nodeFold_apply]
  by_cases hpair : (p = pr.1 ∧ q = b) ∨ (p = b ∧ q = pr.1)
  · rw [if_pos hpair]
    by_cases hv : v ∈ nodes
    · rw [if_pos ⟨hpair, hv⟩, if_pos hv]
    · rw [if_neg (fun h => hv h.2), if_neg hv]
      rcases hpair with ⟨h1, h2⟩ | ⟨h1, h2⟩ <;> simp [h1, h2]
  · rw [if_neg (fun h => hpair h.1), if_neg hpair]
    have : ¬((p = b ∧ q = pr.1) ∨ (p = pr.1 ∧ q = b)) := fun h => hpair h.symm
    simp only [this, if_false]

/-- Cells of a pair `{x, b}` with `x` not among the keys of `L` are left
alone by the outer loop. -/
lemma addAgentFold_untouched (nodes : List Var) (b : ℕ) :
    ∀ (L : BankData) (dv : ℕ → ℕ → Var → Option ℚ) (p q : ℕ) (v : Var),
      (∀ x ∈ L, ¬((p = x.1 ∧ q = b) ∨ (p = b ∧ q = x.1))) →
      (L.foldl (addAgentStep nodes b) dv) p q v = dv p q v := by
  intro L
  induction L with
  | nil => intro dv p q v _; rfl
  | cons x rest ih =>
    intro dv p q v h
    rw [List.foldl_cons, ih _ p q v (fun y hy => h y (List.mem_cons_of_mem _ hy)),
      addAgentStep_apply, if_neg (h x (List.mem_cons_self ..))]

/-- The last iteration writing a pair's cell determines its final value. -/
lemma addAgentFold_write (nodes : List Var) (b : ℕ)
    (L1 L2 : BankData) (x : ℕ × DataSet) (dv : ℕ → ℕ → Var → Option ℚ)
    (p q : ℕ) (v : Var)
    (hx : (p = x.1 ∧ q = b) ∨ (p = b ∧ q = x.1))
    (hL2 : ∀ y ∈ L2, ¬((p = y.1 ∧ q = b) ∨ (p = b ∧ q = y.1))) :
    ((L1 ++ x :: L2).foldl (addAgentStep nodes b) dv) p q v
      = if v ∈ nodes then some (if x.1 ≠ b then 1 else 0) else none := by
  rw [List.foldl_append, List.foldl_cons,
    addAgentFold_untouched nodes b L2 _ p q v hL2, addAgentStep_apply,
    if_pos hx]

/-- `new_agent in self` is exactly membership among the data keys. -/
lemma bank_any_eq (data : BankData) (b : ℕ) :
    data.any (fun p => decide (p.1 = b)) = true ↔ b ∈ data.map Prod.fst := by
  constructor
  · intro h
    obtain ⟨x, hx, hxb⟩ := List.any_eq_true.1 h
    exact List.mem_map.2 ⟨x, hx, of_decide_eq_true hxb⟩
  · intro h
    obtain ⟨x, hx, hxb⟩ := List.mem_map.1 h
    exact List.any_eq_true.2 ⟨x, hx, decide_eq_true hxb⟩

/-- Appending a fresh key makes it found by `lookup`. -/
lemma lookup_append_fresh (b : ℕ) (d : DataSet) :
    ∀ (l : BankData), b ∉ l.map Prod.fst →
      List.lookup b (l ++ [(b, d)]) = some d := by
  intro l
  induction l with
  | nil => intro _; simp [List.lookup]
  | cons x rest ih =>
    intro h
    have hne : b ≠ x.1 := by
      intro hb
      exact h (by simp [hb])
    have : ((b == x.1) : Bool) = false := by simpa using hne
    simpa [List.lookup, this] using ih (fun hb => h (List.mem_cons_of_mem _ hb))

/-- C9: registering a brand-new agent B is a no-op when B is registered,
and otherwise allocates an empty log for B and installs
`divergence[A][B][v] = divergence[B][A][v] = 1` and
`divergence[B][B][v] = 0` for every tracked non-action variable, preserving
`divergence[A][A][v] = 0`. -/
theorem C9_register_divergence_init (db : DataBank) (A B : ℕ) (v : Var)
    (hKeys : (db.data.map Prod.fst).Nodup)
    (hA : A ∈ db.data.map Prod.fst) (hB : B ∉ db.data.map Prod.fst)
    (hv : v ∈ db.get_non_act_nodes)
    (hAA : db.divergence A A v = some 0) :
    (db.add_agent B).divergence A B v = some 1
  ∧ (db.add_agent B).divergence B A v = some 1
  ∧ (db.add_agent B).divergence B B v = some 0
  ∧ (db.add_agent B).divergence A A v = some 0
  ∧ List.lookup B (db.add_agent B).data = some []
  ∧ (∀ (db2 : DataBank) (c : ℕ), c ∈ db2.data.map Prod.fst →
        db2.add_agent c = db2) := by
  have hAB : A ≠ B := fun h => hB (h ▸ hA)
  have hguard : ¬(db.data.any (fun p => decide (p.1 = B)) = true) := by
    rw [bank_any_eq]; exact hB
  have hdiv : (db.add_agent B).divergence
      = (db.data ++ [(B, ([] : DataSet))]).foldl
          (addAgentStep db.get_non_act_nodes B)
          (fun p q w => if p = B then none else db.divergence p q w) := by
    unfold DataBank.add_agent
    rw [if_neg hguard]
  have hdata : (db.add_agent B).data = db.data ++ [(B, ([] : DataSet))] := by
    unfold DataBank.add_agent
    rw [if_neg hguard]
  -- decompose the key list around A's entry
  obtain ⟨xA, hxA, hxA1⟩ : ∃ x ∈ db.data, x.1 = A := by
    obtain ⟨x, hx, h⟩ := List.mem_map.1 hA
    exact ⟨x, hx, h⟩
  obtain ⟨L1, L2, hsplit⟩ := List.append_of_mem hxA
  have hmapsplit : db.data.map Prod.fst
      = L1.map Prod.fst ++ A :: L2.map Prod.fst := by
    rw [hsplit]; simp [hxA1]
  have hA_notin_L2 : A ∉ L2.map Prod.fst := by
    have hnd := hKeys
    rw [hmapsplit] at hnd
    exact (List.nodup_cons.1 hnd.of_append_right).1
  have hfull : db.data ++ [(B, ([] : DataSet))]
      = L1 ++ xA :: (L2 ++ [(B, ([] : DataSet))]) := by
    rw [hsplit]; simp
  have hxAB : xA.1 ≠ B := hxA1.symm ▸ hAB
  refine ⟨?_, ?_, ?_, ?_, ?_, ?_⟩
  · -- divergence[A][B][v] = 1
    have hL2 : ∀ y ∈ L2 ++ [(B, ([] : DataSet))],
        ¬((A = y.1 ∧ B = B) ∨ (A = B ∧ B = y.1)) := by
      rintro y hy (⟨h1, -⟩ | ⟨h1, -⟩)
      · rcases List.mem_append.1 hy with hy2 | hy2
        · exact hA_notin_L2 (h1 ▸ List.mem_map_of_mem Prod.fst hy2)
        · rcases List.mem_singleton.1 hy2 with rfl
          exact hAB (h1 : A = B)
      · exact hAB h1
    rw [hdiv, hfull, addAgentFold_write db.get_non_act_nodes B L1
      (L2 ++ [(B, ([] : DataSet))]) xA _ A B v (Or.inl ⟨hxA1.symm, rfl⟩) hL2,
      if_pos hv, if_pos hxAB]
  · -- divergence[B][A][v] = 1
    have hL2 : ∀ y ∈ L2 ++ [(B, ([] : DataSet))],
        ¬((B = y.1 ∧ A = B) ∨ (B = B ∧ A = y.1)) := by
      rintro y hy (⟨-, h1⟩ | ⟨-, h2⟩)
      · exact hAB h1
      · rcases List.mem_append.1 hy with hy2 | hy2
        · exact hA_notin_L2 (h2 ▸ List.mem_map_of_mem Prod.fst hy2)
        · rcases List.mem_singleton.1 hy2 with rfl
          exact hAB (h2 : A = B)
    rw [hdiv, hfull, addAgentFold_write db.get_non_act_nodes B L1
      (L2 ++ [(B, ([] : DataSet))]) xA _ B A v (Or.inr ⟨rfl, hxA1.symm⟩) hL2,
      if_pos hv, if_pos hxAB]
  · -- divergence[B][B][v] = 0
    have hfullB : db.data ++ [(B, ([] : DataSet))]
        = db.data ++ (B, ([] : DataSet)) :: [] := by simp
    rw [hdiv, hfullB, addAgentFold_write db.get_non_act_nodes B db.data
      [] (B, ([] : DataSet)) _ B B v (Or.inl ⟨rfl, rfl⟩)
      (by rintro y hy -; cases hy), if_pos hv]
    simp
  · -- divergence[A][A][v] = 0 is preserved
    have huntouched : ∀ x ∈ db.data ++ [(B, ([] : DataSet))],
        ¬((A = x.1 ∧ A = B) ∨ (A = B ∧ A = x.1)) := by
      rintro x - (⟨-, h⟩ | ⟨h, -⟩) <;> exact hAB h
    rw [hdiv, addAgentFold_untouched db.get_non_act_nodes B
      (db.data ++ [(B, ([] : DataSet))]) _ A A v huntouched]
    simp only [if_neg hAB]
    exact hAA
  · -- the new agent gets an empty log
    rw [hdata]
    exact lookup_append_fresh B [] db.data hB
  · -- no-op when already registered
    intro db2 c hc
    unfold DataBank.add_agent
    rw [if_pos ((bank_any_eq db2.data c).2 hc)]

/-- C9 witness: registering agent 1 into the one-agent ledger `bank0`. -/
theorem C9_register_divergence_init_witness :
    (bank0.add_agent 1).divergence 0 1 "Y" = some 1
  ∧ (bank0.add_agent 1).divergence 1 0 "Y" = some 1
  ∧ (bank0.add_agent 1).divergence 1 1 "Y" = some 0
  ∧ (bank0.add_agent 1).divergence 0 0 "Y" = some 0
  ∧ List.lookup 1 (bank0.add_agent 1).data = some []
  ∧ (∀ (db2 : DataBank) (c : ℕ), c ∈ db2.data.map Prod.fst →
        db2.add_agent c = db2) :=
  C9_register_divergence_init bank0 0 1 "Y" (by decide) (by decide)
    (by decide) (by decide) (by decide)

/-- Every `add_agent` call leaves its agent registered. -/
lemma add_agent_contains (db : DataBank) (b : ℕ) :
    (db.add_agent b).data.any (fun p => decide (p.1 = b)) = true := by
  unfold DataBank.add_agent
  by_cases h : db.data.any (fun p => decide (p.1 = b)) = true
  · rw [if_pos h]; exact h
  · rw [if_neg h]
    simp [List.any_append]

/-- C10: two DataBanks constructed with the default `data={}`/`divergence={}`
arguments alias the same dict objects (Python evaluates defaults once), so
an agent registered through one is contained in the other; a bank given an
explicitly passed fresh dict is unaffected. -/
theorem C10_default_dict_aliasing (h : Heap) (vars : List Var) (act rew : Var)
    (ag fresh fresh2 : ℕ) (hf : fresh ≠ defaultDataAddr) :
    bank_contains (heap_add_agent h initBankDefault vars act rew ag)
        initBankDefault ag = true
  ∧ bank_contains (heap_add_agent h initBankDefault vars act rew ag)
        (initBankExplicit fresh fresh2) ag
      = bank_contains h (initBankExplicit fresh fresh2) ag := by
  constructor
  · unfold bank_contains heap_add_agent initBankDefault
    simp only [if_pos rfl]
    exact add_agent_contains _ ag
  · unfold bank_contains heap_add_agent initBankExplicit initBankDefault
    simp only []
    rw [if_neg hf]

/-- C10 witness: on the empty heap, registering agent 7 through one default
bank makes it visible through the other default bank, while a bank over the
fresh dict at address 2 is unaffected. -/
theorem C10_default_dict_aliasing_witness :
    bank_contains (heap_add_agent emptyHeap initBankDefault ["X", "Y"] "X" "Y" 7)
        initBankDefault 7 = true
  ∧ bank_contains (heap_add_agent emptyHeap initBankDefault ["X", "Y"] "X" "Y" 7)
        (initBankExplicit 2 3) 7
      = bank_contains emptyHeap (initBankExplicit 2 3) 7 :=
  C10_default_dict_aliasing emptyHeap ["X", "Y"] "X" "Y" 7 2 3 (by decide)

end ECS
